import Mathlib

/-!
# Verification of the nextjs-reader content pipeline

Shallow embedding of the content-ingestion and safe-rendering pipeline of the
reader application: the URL validator with its SSRF guard, the ingestion
(`POST`) and lookup (`GET`) handlers with their in-memory store, the
main-content extractor, the chapter segmentation / preformatted-text reflow of
the reader page, and the DOMPurify-configured sanitizer.

Pure functions of the source are translated directly; the platform pieces that
the source calls ( `new URL`, the cheerio HTML parser, `fetch` ) are made
explicit inputs: a handler receives the parse result / fetch outcome instead of
performing the effect.  Strings are processed as `List Char`, matching
JavaScript's per-code-unit string operations on the BMP inputs that occur here.
-/

namespace Reader

/-! ## JavaScript string primitives -/

/-- The whitespace class of JavaScript regular expressions (`\s`) and of
`String.prototype.trim`. -/
def jsWhitespace : List Char :=
  ['\t', '\n', '\x0b', '\x0c', '\r', ' ', ' ', ' ',
   ' ', ' ', ' ', ' ', ' ', ' ', ' ',
   ' ', ' ', ' ', ' ', ' ', ' ', ' ',
   ' ', '　', '﻿']

def isSpaceJS (c : Char) : Bool := decide (c ∈ jsWhitespace)

/-- JavaScript `String.prototype.trim` on a character list. -/
def trimJS (l : List Char) : List Char :=
  ((l.dropWhile isSpaceJS).reverse.dropWhile isSpaceJS).reverse

/-- JavaScript word character (`\w` of a regular expression). -/
def isWordChar (c : Char) : Bool := c.isAlphanum || c = '_'

/-- ASCII lowercasing, the fragment of `String.prototype.toLowerCase`
exercised by the source (URLs and tag names are ASCII). -/
def toLowerList (l : List Char) : List Char := l.map Char.toLower

/-- Whether `pat` occurs as a contiguous sublist of `l`
(JavaScript `String.prototype.includes`). -/
def containsSub (pat : List Char) : List Char → Bool
  | [] => pat.isEmpty
  | c :: rest => pat.isPrefixOf (c :: rest) || containsSub pat rest

def strContains (s pat : String) : Bool := containsSub pat.data s.data

def jsToLower (s : String) : String := ⟨toLowerList s.data⟩

/-- JavaScript `String.prototype.endsWith`. -/
def jsEndsWith (s suffix : String) : Bool := suffix.data.isSuffixOf s.data

/-! ## URL validator (`isPrivateIP`, `validateURL` in the ingestion route) -/

/-- Split on the dot character, keeping empty segments
(`"a..b".split` style, as the anchored regex sees the string). -/
def splitOnDot : List Char → List (List Char)
  | [] => [[]]
  | c :: rest =>
    if c = '.' then [] :: splitOnDot rest
    else
      match splitOnDot rest with
      | g :: gs => (c :: g) :: gs
      | [] => [[c]]

/-- Decimal value of a digit run, as JavaScript `Number` reads it. -/
def digitsVal (l : List Char) : Nat :=
  l.foldl (fun n c => n * 10 + (c.toNat - '0'.toNat)) 0

/-- The capture groups of the regular expression
`^(\d{1,3})\.(\d{1,3})\.(\d{1,3})\.(\d{1,3})$` used by `isPrivateIP`,
converted by `Number`: four dot-separated runs of one to three decimal
digits, read as decimal values.  Splitting on the dot is equivalent to the
anchored regex because a digit is never a dot. -/
def ipv4Groups (hostname : String) : Option (Nat × Nat × Nat × Nat) :=
  match splitOnDot hostname.data with
  | [p1, p2, p3, p4] =>
    if [p1, p2, p3, p4].all
        (fun p => decide (1 ≤ p.length) && decide (p.length ≤ 3) &&
                  p.all Char.isDigit) then
      some (digitsVal p1, digitsVal p2, digitsVal p3, digitsVal p4)
    else
      none
  | _ => none

/-- `isPrivateIP` of the ingestion route: literal comparison against
`localhost`, `127.0.0.1`, `::1`, then the dotted-quad range checks on the
first two captured groups. -/
def isPrivateIP (hostname : String) : Bool :=
  if hostname = "localhost" || hostname = "127.0.0.1" || hostname = "::1" then
    true
  else
    match ipv4Groups hostname with
    | some (a, b, _, _) =>
      a == 10 ||
      (a == 172 && 16 ≤ b && b ≤ 31) ||
      (a == 192 && b == 168) ||
      (a == 169 && b == 254) ||
      a == 127
    | none => false

/-- Result of the platform `new URL` constructor: the fields the route
reads.  `none` models the constructor throwing on malformed input. -/
structure ParsedURL where
  protocol : String
  hostname : String
deriving DecidableEq, Repr

structure ValidationResult where
  valid : Bool
  error : Option String
deriving DecidableEq, Repr

/-- `validateURL` of the ingestion route, with the platform URL parse made
an explicit input (the source constructs `new URL(url)` inside a
`try`/`catch`; a throwing parse is the `none` case). -/
def validateURL (parsed : Option ParsedURL) : ValidationResult :=
  match parsed with
  | none => ⟨false, some "Invalid URL format"⟩
  | some p =>
    if p.protocol ≠ "http:" && p.protocol ≠ "https:" then
      ⟨false, some "Only HTTP and HTTPS protocols are allowed"⟩
    else if isPrivateIP p.hostname then
      ⟨false, some "Access to private/internal IPs is not allowed"⟩
    else
      ⟨true, none⟩

/-! ## HTML document model

The route parses fetched HTML with cheerio.  The parse itself is a platform
effect; handlers receive the parsed node tree.  Tag and attribute names are
as the HTML parser produces them: lowercased. -/

inductive HNode where
  | text (s : String)
  | elem (tag : String) (attrs : List (String × String)) (children : List HNode)
deriving Repr

def HNode.childrenOf : HNode → List HNode
  | .text _ => []
  | .elem _ _ ch => ch

def getAttr (attrs : List (String × String)) (name : String) : Option String :=
  (attrs.find? (fun a => a.1 = name)).map (·.2)

/-- Split a class attribute value on whitespace, as the DOM does when
matching a class selector; `acc` holds the current token reversed. -/
def splitClassesAux (acc : List Char) : List Char → List (List Char)
  | [] => if acc.isEmpty then [] else [acc.reverse]
  | c :: rest =>
    if isSpaceJS c then
      (if acc.isEmpty then [] else [acc.reverse]) ++ splitClassesAux [] rest
    else
      splitClassesAux (c :: acc) rest

def splitClasses (l : List Char) : List (List Char) := splitClassesAux [] l

def hasClass (attrs : List (String × String)) (c : String) : Bool :=
  match getAttr attrs "class" with
  | some v => decide (c.data ∈ splitClasses v.data)
  | none => false

/-- The CSS selectors the extractor uses: a tag selector, an exact attribute
selector (`[role="main"]`), a class selector and an id selector. -/
inductive Sel where
  | tagSel (t : String)
  | attrSel (name value : String)
  | classSel (c : String)
  | idSel (i : String)

def selMatches (s : Sel) (tag : String) (attrs : List (String × String)) : Bool :=
  match s with
  | .tagSel t => tag = t
  | .attrSel n v => getAttr attrs n = some v
  | .classSel c => hasClass attrs c
  | .idSel i => getAttr attrs "id" = some i

/-- All elements matching a selector, in document (pre-)order — the order in
which cheerio's `$(selector)` yields them. -/
def selectAll (s : Sel) : List HNode → List HNode
  | [] => []
  | .text _ :: rest => selectAll s rest
  | .elem t a ch :: rest =>
    (if selMatches s t a then [HNode.elem t a ch] else []) ++
    selectAll s ch ++ selectAll s rest

/-- Concatenated text of all descendant text nodes — cheerio `.text()` over a
node list.  Over a multi-element selection this is the combined text of every
matched element. -/
def textOfList : List HNode → String
  | [] => ""
  | .text s :: rest => s ++ textOfList rest
  | .elem _ _ ch :: rest => textOfList ch ++ textOfList rest

/-- Noise predicate of the first cleanup pass:
`script, style, nav, header, footer, aside, iframe, .ad, .advertisement, .social-share`. -/
def isNoise1 (tag : String) (attrs : List (String × String)) : Bool :=
  decide (tag ∈ ["script", "style", "nav", "header", "footer", "aside", "iframe"]) ||
  hasClass attrs "ad" || hasClass attrs "advertisement" || hasClass attrs "social-share"

/-- Noise predicate of the post-selection cleanup:
`script, style, nav, header, footer, aside, iframe, .ad, .advertisement`
(note: no `.social-share` the second time). -/
def isNoise2 (tag : String) (attrs : List (String × String)) : Bool :=
  decide (tag ∈ ["script", "style", "nav", "header", "footer", "aside", "iframe"]) ||
  hasClass attrs "ad" || hasClass attrs "advertisement"

/-- `$(noiseSelector).remove()`: drop every matching element, wherever it
sits in the tree, with its whole subtree. -/
def removeIf (p : String → List (String × String) → Bool) : List HNode → List HNode
  | [] => []
  | .text s :: rest => .text s :: removeIf p rest
  | .elem t a ch :: rest =>
    if p t a then removeIf p rest
    else .elem t a (removeIf p ch) :: removeIf p rest

/-- Serialization of a node list, as `.html()` renders inner HTML. -/
def renderAttrs : List (String × String) → String
  | [] => ""
  | (n, v) :: rest => " " ++ n ++ "=\x22" ++ v ++ "\x22" ++ renderAttrs rest

def renderList : List HNode → String
  | [] => ""
  | .text s :: rest => s ++ renderList rest
  | .elem t a ch :: rest =>
    "<" ++ t ++ renderAttrs a ++ ">" ++ renderList ch ++ "</" ++ t ++ ">" ++
    renderList rest

/-! ## Content extractor (`extractMainContent` in the ingestion route) -/

/-- The ordered container-selector list of the extractor. -/
def articleSelectors : List Sel :=
  [.tagSel "article", .attrSel "role" "main", .tagSel "main",
   .classSel "article-content", .classSel "post-content",
   .classSel "entry-content", .idSel "content", .classSel "content"]

/-- Title resolution: `$('title').text() || $('h1').first().text() || 'Untitled'`
on the noise-stripped document. -/
def extractTitle (doc : List HNode) : String :=
  let d := removeIf isNoise1 doc
  let t := textOfList (selectAll (.tagSel "title") d)
  if t ≠ "" then t
  else
    let h := match selectAll (.tagSel "h1") d with
      | e :: _ => textOfList e.childrenOf
      | [] => ""
    if h ≠ "" then h else "Untitled"

/-- The selector loop of the extractor: the first selector whose match set is
non-empty and whose combined trimmed text exceeds 100 characters yields its
first matched element (`element.html()` serializes the first element of a
cheerio selection, while `element.text()` combines the text of all of them). -/
def selectLoop (d : List HNode) : List Sel → Option HNode
  | [] => none
  | s :: rest =>
    let els := selectAll s d
    if decide (els.length > 0) && decide ((trimJS (textOfList els).data).length > 100) then
      els.head?
    else
      selectLoop d rest

/-- The `content` variable of `extractMainContent` after the selector loop and
the body fallback: inner HTML of the winning element, or the body's inner HTML
when no selector qualified or the winning element serialized to the empty
string (`content = element.html() || ''` followed by `if (!content)`). -/
def extractContent (doc : List HNode) : String :=
  let d := removeIf isNoise1 doc
  let content :=
    match selectLoop d articleSelectors with
    | some e => renderList e.childrenOf
    | none => ""
  if content = "" then
    match selectAll (.tagSel "body") d with
    | b :: _ => renderList b.childrenOf
    | [] => ""
  else content

/-- The node-level selection underlying `extractContent`, for the
post-selection cleanup: the source serializes the chosen fragment, reparses it
with cheerio and strips noise again; here the reparse of the just-serialized
fragment is the fragment itself. -/
def extractSelectedNodes (doc : List HNode) : List HNode :=
  let d := removeIf isNoise1 doc
  let chosen :=
    match selectLoop d articleSelectors with
    | some e => e.childrenOf
    | none => []
  if renderList chosen = "" then
    match selectAll (.tagSel "body") d with
    | b :: _ => b.childrenOf
    | [] => []
  else chosen

/-- `extractMainContent`: title resolution plus the cleaned content.  The
final serialization `$content.html()` of a cheerio-loaded fragment carries the
document wrapper cheerio adds around a fragment. -/
def extractMainContent (doc : List HNode) : String × String :=
  (extractTitle doc,
   "<html><head></head><body>" ++
   renderList (removeIf isNoise2 (extractSelectedNodes doc)) ++
   "</body></html>")

/-! ## Demo fixture, store and HTTP handlers -/

/-- The demo fixture document (`getDemoContent`), embedded verbatim. -/
def demoTitle : String := "Demo Article: The Art of Reading"

def demoContent : String :=
"
      <h2>Introduction</h2>
      <p>Reading is one of humanity's most powerful tools for learning and growth. This demo article showcases the reader functionality with a clean, distraction-free interface.</p>
      
      <pre>
Chapter One: The Beginning
This is the first chapter of our story.
It has multiple lines
that should be reflowed into a single paragraph.

But when there's an empty line like above,
it should create a new paragraph.

This is the third paragraph in chapter one.
More text here that flows together
on multiple lines.
      </pre>
      
      <h2>The Benefits of Reading</h2>
      <p>Reading provides numerous cognitive benefits. It improves vocabulary, enhances focus, reduces stress, and expands knowledge. Whether you're reading fiction or non-fiction, the act of reading stimulates your brain and keeps it active.</p>
      
      <pre>
Chapter Two: The Middle
Chapter two begins here.
This is also a multi-line chapter
that needs text reflow.

Another paragraph in chapter two
with text that flows
across multiple lines
smoothly.
      </pre>
      
      <p>Studies have shown that regular reading can improve memory, analytical thinking, and even empathy. When we read stories, we experience different perspectives and emotions, which helps us understand others better.</p>
      
      <h2>Reader Mode Features</h2>
      <p>This reader mode is designed to provide a comfortable reading experience:</p>
      <ul>
        <li>Clean, distraction-free layout</li>
        <li>Garamond font family for elegant typography</li>
        <li>Adjustable font size for comfort</li>
        <li>Black text on white background for optimal contrast</li>
        <li>Automatic position saving to resume where you left off</li>
        <li>Chapter navigation for PRE-formatted content</li>
      </ul>
      
      <pre>
Chapter Three: The End
The final chapter.
Short and sweet.

With a second paragraph
that also has some
multi-line text.

And a third paragraph to demonstrate
the paragraph preservation feature
working correctly.
      </pre>
      
      <h2>How to Use</h2>
      <p>To use this reader, simply enter a URL on the home page. The system will fetch the content, extract the main article, and present it in this clean format. You can adjust the font size using the controls at the top of the page.</p>
      
      <p>Your reading position is automatically saved in your browser's local storage, so you can always pick up where you left off when you return to an article.</p>
      
      <h2>Conclusion</h2>
      <p>We hope you enjoy this clean reading experience. Whether you're reading articles, blog posts, or long-form content, this reader mode is designed to make your reading sessions more pleasant and focused.</p>
      
      <p>Happy reading!</p>
    "

/-- A record of the in-memory `storage` map. -/
structure StoredRecord where
  url : String
  title : String
  content : String
  timestamp : Nat
deriving DecidableEq, Repr

/-- The in-memory store, a JavaScript `Map` keyed by id. -/
abbrev Storage := List (String × StoredRecord)

/-- `storage.set(id, record)`: insert or replace. -/
def storageSet (id : String) (r : StoredRecord) (s : Storage) : Storage :=
  (id, r) :: s.filter (fun kv => kv.1 ≠ id)

/-- `storage.get(id)`. -/
def storageGet (id : String) (s : Storage) : Option StoredRecord :=
  (s.find? (fun kv => kv.1 = id)).map (·.2)

/-- Outcome of the outbound `fetch` of a validated URL: a transport-level
throw, or a response with its `ok` flag, status, status text and the cheerio
parse of its body text. -/
inductive FetchOutcome where
  | failure
  | response (ok : Bool) (status : Nat) (statusText : String) (dom : List HNode)

/-- The request-dependent inputs of the `POST` handler: the `url` field of
the JSON body (`none` when absent), the platform parse of that URL, the fetch
outcome were a fetch issued, the id `generateId()` produced and the clock. -/
structure PostInput where
  url : Option String
  parsed : Option ParsedURL
  fetched : FetchOutcome
  newId : String
  now : Nat

inductive ApiResult where
  | error (status : Nat) (message : String)
  | ok (id : String) (title : String)
deriving DecidableEq, Repr

/-- The demo short-circuit of the `POST` handler: the URL contains `demo`
case-insensitively, or its hostname is `example.com` or ends in
`.example.com`. -/
def demoRequested (url : String) (p : ParsedURL) : Bool :=
  strContains (jsToLower url) "demo" ||
  p.hostname == "example.com" ||
  jsEndsWith p.hostname ".example.com"

/-- The `POST /api/fetch` handler (ingestion): body check, validation, demo
short-circuit, fetch with graceful degrade to the fixture on a transport
failure, extraction, store write.  `inp.url = none` or the empty string is
the falsy `!url` branch; a `parsed` of `none` surfaces through `validateURL`. -/
def POST (inp : PostInput) (storage : Storage) : ApiResult × Storage :=
  match inp.url with
  | none => (.error 400 "URL is required", storage)
  | some url =>
    if url = "" then
      (.error 400 "URL is required", storage)
    else
      let validation := validateURL inp.parsed
      if !validation.valid then
        (.error 400 (validation.error.getD ""), storage)
      else
        match inp.parsed with
        | none => (.error 400 "Invalid URL format", storage)
        | some p =>
          let step : Except (Nat × String) (String × String) :=
            if demoRequested url p then
              .ok (demoTitle, demoContent)
            else
              match inp.fetched with
              | .failure =>
                .ok (demoTitle ++ " (Demo - Fetch Failed)", demoContent)
              | .response ok status statusText dom =>
                if !ok then
                  .error (status, "Failed to fetch URL: " ++ statusText)
                else
                  .ok (extractMainContent dom)
          match step with
          | .error (st, msg) => (.error st msg, storage)
          | .ok (title, content) =>
            (.ok inp.newId title,
             storageSet inp.newId ⟨url, title, content, inp.now⟩ storage)

inductive GetApiResult where
  | error (status : Nat) (message : String)
  | ok (record : StoredRecord)
deriving DecidableEq, Repr

/-- The `GET /api/fetch?id=` handler: missing or empty id is the falsy
`!id` branch; unknown id is a 404; otherwise the stored record is returned. -/
def GET (id : Option String) (storage : Storage) : GetApiResult :=
  match id with
  | none => .error 400 "ID is required"
  | some i =>
    if i = "" then .error 400 "ID is required"
    else
      match storageGet i storage with
      | none => .error 404 "Content not found"
      | some r => .ok r

/-! ## Sanitizer

The reader page sanitizes the processed HTML with DOMPurify under an explicit
configuration.  DOMPurify is modelled as its documented allow-list filtering
over the parsed node tree: an allowed element survives with its attributes
filtered to the allowed set; a disallowed element is dropped and its children
are kept in place (DOMPurify keeps content of removed nodes by default) unless
the element is one whose content DOMPurify always discards (script, style,
iframe and the other members of its forbid-contents set).  The two allow
lists are the `ALLOWED_TAGS` / `ALLOWED_ATTR` literals of the reader page. -/

def allowedTags : List String :=
  ["p", "br", "strong", "em", "u", "h1", "h2", "h3", "h4", "h5", "h6",
   "ul", "ol", "li", "a", "blockquote", "code", "img", "div", "span"]

def allowedAttrs : List String :=
  ["href", "src", "alt", "title", "class", "id"]

/-- Elements whose content DOMPurify discards when removing them. -/
def forbidContents : List String :=
  ["annotation-xml", "audio", "colgroup", "desc", "foreignobject", "head",
   "iframe", "math", "mi", "mn", "mo", "ms", "mtext", "noembed", "noframes",
   "noscript", "plaintext", "script", "style", "svg", "template", "thead",
   "title", "video", "xmp"]

def sanitizeList : List HNode → List HNode
  | [] => []
  | .text s :: rest => .text s :: sanitizeList rest
  | .elem t a ch :: rest =>
    if t ∈ allowedTags then
      .elem t (a.filter (fun kv => decide (kv.1 ∈ allowedAttrs))) (sanitizeList ch)
        :: sanitizeList rest
    else if t ∈ forbidContents then
      sanitizeList rest
    else
      sanitizeList ch ++ sanitizeList rest

/-- `DOMPurify.sanitize` with the reader page's configuration, from parsed
nodes to the safe HTML string handed to `dangerouslySetInnerHTML`. -/
def sanitizedRender (dom : List HNode) : String :=
  renderList (sanitizeList dom)

/-- Every element carries an allowed tag and only allowed attributes. -/
def listSafe : List HNode → Bool
  | [] => true
  | .text _ :: rest => listSafe rest
  | .elem t a ch :: rest =>
    decide (t ∈ allowedTags) &&
    a.all (fun kv => decide (kv.1 ∈ allowedAttrs)) &&
    listSafe ch && listSafe rest

/-- No script element, no `on*`-prefixed attribute, no `style` attribute. -/
def listClean : List HNode → Bool
  | [] => true
  | .text _ :: rest => listClean rest
  | .elem t a ch :: rest =>
    t ≠ "script" &&
    a.all (fun kv => !("on".data.isPrefixOf kv.1.data) && kv.1 ≠ "style") &&
    listClean ch && listClean rest

/-- The HTML string the legacy reader page (the second `ReaderContent`, which
has no DOMPurify import) passes to `dangerouslySetInnerHTML`: the stored
record's content, unmodified. -/
def legacyReaderInjectedHTML (record : StoredRecord) : String :=
  record.content

/-! ## Preformatted-text reflow (the `useMemo` body of the reader page)

The reader builds `processedContent` with global regex replaces.  Each
replace is translated as a left-to-right scan: a global regex replace finds
leftmost non-overlapping matches and resumes scanning after a match. -/

/-- `'\u0000PARAGRAPH_BREAK\u0000'`. -/
def placeholder : List Char := "\x00PARAGRAPH_BREAK\x00".data

/-- The paragraph-boundary markup substituted for the placeholder. -/
def pBreakHTML : List Char := "</p><br/><br/><p>".data

/-- Global replacement of a literal pattern, leftmost first, resuming after
each replacement (JavaScript `replace` with a global pattern).  The scan is
written with explicit fuel so that it is structurally recursive; every step
consumes at least one character, so the wrapper's fuel of `length + 1` is
never exhausted. -/
def replaceListF (pat repl : List Char) : Nat → List Char → List Char
  | 0, l => l
  | _ + 1, [] => []
  | fuel + 1, c :: rest =>
    if pat ≠ [] ∧ pat.isPrefixOf (c :: rest) then
      repl ++ replaceListF pat repl fuel ((c :: rest).drop pat.length)
    else
      c :: replaceListF pat repl fuel rest

def replaceList (pat repl : List Char) (l : List Char) : List Char :=
  replaceListF pat repl (l.length + 1) l

/-- The tail of a `/\n\s*\n/` match: given the characters after the leading
newline, the greedy `\s*` takes the maximal whitespace run and backtracks to
the last newline inside it; `none` when the run holds no newline (no match).
Returns the characters following the match. -/
def breakSplit (rest : List Char) : Option (List Char) :=
  let run := rest.takeWhile isSpaceJS
  match (run.reverse).findIdx? (fun c => c = '\n') with
  | none => none
  | some k => some (run.drop (run.length - k) ++ rest.drop run.length)

/-- `/\n\s*\n/g → placeholder`: runs of two or more newlines, optionally
interspersed with whitespace, become the paragraph-break placeholder.  Fuel
as in `replaceListF`: a match consumes the leading newline and part of the
run, so the remainder is always shorter than the scanned list. -/
def paraBreakPassF : Nat → List Char → List Char
  | 0, l => l
  | _ + 1, [] => []
  | fuel + 1, c :: rest =>
    if c = '\n' then
      match breakSplit rest with
      | some leftover => placeholder ++ paraBreakPassF fuel leftover
      | none => c :: paraBreakPassF fuel rest
    else
      c :: paraBreakPassF fuel rest

def paraBreakPass (l : List Char) : List Char :=
  paraBreakPassF (l.length + 1) l

/-- `/\n/g → ' '`: single newlines collapse to a space. -/
def newlinesToSpaces (l : List Char) : List Char :=
  l.map (fun c => if c = '\n' then ' ' else c)

/-- `/  +/g → ' '` as a scan: `afterSpace` records that the previous emitted
character was a space, so the further spaces of the run are dropped. -/
def collapseSpacesGo (afterSpace : Bool) : List Char → List Char
  | [] => []
  | c :: rest =>
    if c = ' ' then
      if afterSpace then collapseSpacesGo true rest
      else ' ' :: collapseSpacesGo true rest
    else
      c :: collapseSpacesGo false rest

/-- `/  +/g → ' '`: a maximal run of two or more spaces collapses to one
space, a single space stays. -/
def collapseSpaces (l : List Char) : List Char := collapseSpacesGo false l

/-- The `processedPre` chain of the preformatted-block pass: CRLF
normalization, paragraph-break marking, newline reflow, space collapsing,
and substitution of the paragraph markup for the placeholder. -/
def reflowPre (preContent : List Char) : List Char :=
  replaceList placeholder pBreakHTML
    (collapseSpaces
      (newlinesToSpaces
        (paraBreakPass
          (replaceList "\r\n".data "\n".data preContent))))

/-! ## Chapter segmentation scanners

`/<pre\b[^>]*>([\s\S]*?)<\/pre>/gi` and `/<p\b[^>]*>([\s\S]*?)<\/p>/gi` are
translated as scanners: an opening tag is `<`, the tag letters
case-insensitively, a word boundary, any characters other than `>`, then `>`;
the lazy body runs to the first case-insensitive occurrence of the literal
closing tag.  On a failed match the scan advances one character, as a global
regex does. -/

/-- Case-insensitive prefix test: `pat` (given lowercase) against the
lowercased head of `l`. -/
def isPrefixOfCI : List Char → List Char → Bool
  | [], _ => true
  | _ :: _, [] => false
  | a :: as, b :: bs => a == b.toLower && isPrefixOfCI as bs

/-- Match an opening tag at the head of `l`; `tag` is given lowercase.
Returns the characters following the `>` of the opening tag. -/
def matchOpenTag (tag : List Char) (l : List Char) : Option (List Char) :=
  match l with
  | '<' :: rest =>
    if isPrefixOfCI tag rest then
      let after := rest.drop tag.length
      match after with
      | [] => none
      | d :: _ =>
        if isWordChar d then none
        else
          let pre := after.takeWhile (fun c => c ≠ '>')
          if pre.length < after.length then some (after.drop (pre.length + 1))
          else none
    else none
  | _ => none

/-- Split `l` at the first case-insensitive occurrence of `close` (given
lowercase): the characters before it and the characters after it. -/
def findClose (close : List Char) : List Char → Option (List Char × List Char)
  | [] => none
  | c :: rest =>
    if isPrefixOfCI close (c :: rest) then
      some ([], (c :: rest).drop close.length)
    else
      match findClose close rest with
      | some (body, after) => some (c :: body, after)
      | none => none

/-- A successful opening-tag match consumes at least one character (with
`findClose_some_length` this shows every scanner step shortens the input, so
the fuel of `length + 1` used by the scanner wrappers is never exhausted). -/
theorem matchOpenTag_some_length {tag : List Char} {l res : List Char}
    (h : matchOpenTag tag l = some res) : res.length < l.length := by
  unfold matchOpenTag at h
  split at h
  case h_2 => exact absurd h (by simp)
  case h_1 c rest =>
    simp only [] at h
    split at h
    · split at h
      · exact absurd h (by simp)
      · split at h
        · exact absurd h (by simp)
        · split at h
          · cases h
            simp only [List.length_drop, List.length_cons]
            have hd : (rest.drop tag.length).length ≤ rest.length := by
              simp [List.length_drop]
            omega
          · exact absurd h (by simp)
    · exact absurd h (by simp)

/-- A successful closing-tag search consumes at least the closing tag. -/
theorem findClose_some_length {close : List Char} (hne : close ≠ []) :
    ∀ {l body after : List Char},
      findClose close l = some (body, after) → after.length < l.length := by
  intro l
  induction l with
  | nil => intro body after h; exact absurd h (by simp [findClose])
  | cons c rest ih =>
    intro body after h
    unfold findClose at h
    split at h
    · cases h
      have hpos : 0 < close.length := List.length_pos.mpr hne
      simp only [List.length_drop, List.length_cons]
      omega
    · split at h
      · cases h
        have := ih (by assumption)
        simp only [List.length_cons]
        omega
      · exact absurd h (by simp)

/-- `/<[^>]*>/g → ''`: the tag-stripping used to obtain a paragraph's text
content for pattern matching.  Fuel as in `replaceListF`. -/
def stripTagsF : Nat → List Char → List Char
  | 0, l => l
  | _ + 1, [] => []
  | fuel + 1, c :: rest =>
    if c = '<' then
      let pre := rest.takeWhile (fun d => d ≠ '>')
      if pre.length < rest.length then stripTagsF fuel (rest.drop (pre.length + 1))
      else c :: stripTagsF fuel rest
    else
      c :: stripTagsF fuel rest

def stripTags (l : List Char) : List Char := stripTagsF (l.length + 1) l

/-- `/^(?:Chapter|Part)\s+\d+/i.test`: the text begins, case-insensitively,
with `chapter` or `part`, then at least one whitespace character, then a
digit. -/
def chapterPatternTest (l : List Char) : Bool :=
  let low := toLowerList l
  let kwTail : Option (List Char) :=
    if "chapter".data.isPrefixOf low then some (low.drop 7)
    else if "part".data.isPrefixOf low then some (low.drop 4)
    else none
  match kwTail with
  | none => false
  | some t =>
    let sp := t.takeWhile isSpaceJS
    !sp.isEmpty &&
      (match t.drop sp.length with
       | d :: _ => d.isDigit
       | [] => false)

/-- The replacement the preformatted-block pass builds for one `<pre>` block,
`idx` being the already-incremented chapter index: the chapter id, the title
(first line of the trimmed block, at most 50 characters, retrimmed; `Chapter
idx` when the block trims to nothing) and the wrapped reflowed body. -/
def preReplacement (idx : Nat) (preContent : List Char) : List Char × String × String :=
  let chapterId := "chapter-" ++ toString idx
  let trimmed := trimJS preContent
  let chapterTitle :=
    if trimmed.isEmpty then "Chapter " ++ toString idx
    else String.mk (trimJS ((trimmed.takeWhile (fun c => c ≠ '\n')).take 50))
  let out :=
    "<div className=\x22chapter\x22 id=\x22".data ++ chapterId.data ++ "\x22><h2>".data ++
    chapterTitle.data ++ "</h2><p>".data ++ reflowPre preContent ++ "</p></div>".data
  (out, chapterId, chapterTitle)

/-- The preformatted-block pass: every `<pre …>…</pre>` block becomes a
chapter container; returns the processed characters, the chapter entries in
discovery order, and the final chapter index. -/
def prePassF : Nat → List Char → Nat → List Char × List (String × String) × Nat
  | 0, l, idx => (l, [], idx)
  | _ + 1, [], idx => ([], [], idx)
  | fuel + 1, c :: rest, idx =>
    match matchOpenTag "pre".data (c :: rest) with
    | some afterOpen =>
      match findClose "</pre>".data afterOpen with
      | some (body, afterClose) =>
        let (out, chapterId, chapterTitle) := preReplacement (idx + 1) body
        let (tailOut, chs, idxF) := prePassF fuel afterClose (idx + 1)
        (out ++ tailOut, (chapterId, chapterTitle) :: chs, idxF)
      | none =>
        let (tailOut, chs, idxF) := prePassF fuel rest idx
        (c :: tailOut, chs, idxF)
    | none =>
      let (tailOut, chs, idxF) := prePassF fuel rest idx
      (c :: tailOut, chs, idxF)

def prePass (l : List Char) (idx : Nat) : List Char × List (String × String) × Nat :=
  prePassF (l.length + 1) l idx

/-- The replacement the marker-paragraph pass builds for one `<p>` element
whose text matched: the wrapped original paragraph and the chapter entry
(text truncated to 50 characters, ellipsis appended when truncated). -/
def markerReplacement (idx : Nat) (pContent : List Char) : List Char × String × String :=
  let chapterId := "chapter-" ++ toString idx
  let textContent := trimJS (stripTags pContent)
  let titleText := textContent.take 50
  let chapterTitle :=
    if titleText.length < textContent.length then String.mk (titleText ++ "...".data)
    else String.mk titleText
  let out :=
    "<div className=\x22chapter\x22 id=\x22".data ++ chapterId.data ++ "\x22><p>".data ++
    pContent ++ "</p></div>".data
  (out, chapterId, chapterTitle)

/-- The marker-paragraph pass: a `<p …>…</p>` whose tag-stripped trimmed text
matches the chapter pattern is promoted; other paragraphs are emitted as
matched (`return match`). -/
def markerPassF : Nat → List Char → Nat → List Char × List (String × String) × Nat
  | 0, l, idx => (l, [], idx)
  | _ + 1, [], idx => ([], [], idx)
  | fuel + 1, c :: rest, idx =>
    match matchOpenTag "p".data (c :: rest) with
    | some afterOpen =>
      match findClose "</p>".data afterOpen with
      | some (body, afterClose) =>
        if chapterPatternTest (trimJS (stripTags body)) then
          let (out, chapterId, chapterTitle) := markerReplacement (idx + 1) body
          let (tailOut, chs, idxF) := markerPassF fuel afterClose (idx + 1)
          (out ++ tailOut, (chapterId, chapterTitle) :: chs, idxF)
        else
          let matchedLen := (c :: rest).length - afterClose.length
          let (tailOut, chs, idxF) := markerPassF fuel afterClose idx
          ((c :: rest).take matchedLen ++ tailOut, chs, idxF)
      | none =>
        let (tailOut, chs, idxF) := markerPassF fuel rest idx
        (c :: tailOut, chs, idxF)
    | none =>
      let (tailOut, chs, idxF) := markerPassF fuel rest idx
      (c :: tailOut, chs, idxF)

def markerPass (l : List Char) (idx : Nat) : List Char × List (String × String) × Nat :=
  markerPassF (l.length + 1) l idx

/-- The whole `useMemo` segmentation: the preformatted-block pass over the
stored content, then the marker-paragraph pass over its output, the chapter
index continuing across the passes and the chapter lists concatenating in
discovery order. -/
def segment (content : String) : String × List (String × String) :=
  let (c1, chs1, idx1) := prePass content.data 0
  let (c2, chs2, _) := markerPass c1 idx1
  (String.mk c2, chs1 ++ chs2)

/-! ## Claim-side definitions

Definitions written from the words of the specification's claims, to be
compared against the source-derived definitions above. -/

/-- The hostname set of the SSRF claim: `localhost`, `127.0.0.1`, `::1`, or a
dotted-quad address lying in 10.0.0.0/8, 172.16.0.0/12, 192.168.0.0/16,
169.254.0.0/16 or 127.0.0.0/8. -/
def claimPrivateHostname (h : String) : Prop :=
  h = "localhost" ∨ h = "127.0.0.1" ∨ h = "::1" ∨
  (∃ a b c d, ipv4Groups h = some (a, b, c, d) ∧
    a ≤ 255 ∧ b ≤ 255 ∧ c ≤ 255 ∧ d ≤ 255 ∧
    (a = 10 ∨ (a = 172 ∧ 16 ≤ b ∧ b ≤ 31) ∨ (a = 192 ∧ b = 168) ∨
     (a = 169 ∧ b = 254) ∨ a = 127))

/-- The candidate elements of the claim's reading: the matches of each
selector, in selector priority order. -/
def claimCandidates (d : List HNode) : List Sel → List HNode
  | [] => []
  | s :: rest => selectAll s d ++ claimCandidates d rest

/-- The first candidate element whose own trimmed text length exceeds 100. -/
def claimPick : List HNode → Option HNode
  | [] => none
  | e :: rest =>
    if (trimJS (textOfList [e]).data).length > 100 then some e
    else claimPick rest

/-- The body fallback shared by both readings of the extraction step: the
inner HTML of the document body. -/
def bodyFallback (d : List HNode) : String :=
  match selectAll (.tagSel "body") d with
  | b :: _ => renderList b.childrenOf
  | [] => ""

/-- The extraction claim as stated: the candidate elements of the selectors
in priority order; the first single element whose own trimmed text length
exceeds 100 wins and its inner HTML is the content; if no candidate
qualifies, the body's inner HTML is used. -/
def claimExtract (doc : List HNode) : String :=
  let d := removeIf isNoise1 doc
  match claimPick (claimCandidates d articleSelectors) with
  | some e => renderList e.childrenOf
  | none => bodyFallback d

/-- The extraction behaviour as amended: the first selector in priority order
with at least one match whose matches' combined trimmed text length exceeds
100 wins; the content is the inner HTML of its first matched element; when no
selector qualifies, or the winning inner HTML serializes to the empty string,
the body's inner HTML is used. -/
def amendedExtract (doc : List HNode) : String :=
  let d := removeIf isNoise1 doc
  let winner := articleSelectors.find? (fun s =>
    decide ((selectAll s d).length > 0) &&
    decide ((trimJS (textOfList (selectAll s d)).data).length > 100))
  let chosen :=
    match winner with
    | some s =>
      match selectAll s d with
      | e :: _ => renderList e.childrenOf
      | [] => ""
    | none => ""
  if chosen = "" then
    match selectAll (.tagSel "body") d with
    | b :: _ => renderList b.childrenOf
    | [] => ""
  else chosen

/-- A document on which the stated extraction claim and the code disagree:
two `article` elements of 60 characters of text each. -/
def twoArticlesDoc : List HNode :=
  [.elem "body" []
    [.elem "article" [] [.text "aaaaaaaaaaaaaaaaaaaaaaaaaaaaaaaaaaaaaaaaaaaaaaaaaaaaaaaaaaaa"],
     .elem "article" [] [.text "bbbbbbbbbbbbbbbbbbbbbbbbbbbbbbbbbbbbbbbbbbbbbbbbbbbbbbbbbbbb"]]]

/-- A stored record whose content carries an event-handler attribute: main
content extraction strips script elements but passes attributes through, so
such a record is reachable from ingestion of hostile HTML. -/
def evilRecord : StoredRecord :=
  ⟨"http://attacker.example.org/", "t", "<img src=x onerror=alert(1)>", 0⟩

/-- The chapter-marker condition as the claim words it: the text begins,
case-insensitively, with `Chapter` or `Part`, followed by at least one
whitespace character and a digit. -/
def claimChapterStart (l : List Char) : Prop :=
  ∃ kw sp d rest, toLowerList l = kw ++ sp ++ d :: rest ∧
    (kw = "chapter".data ∨ kw = "part".data) ∧
    sp ≠ [] ∧ (∀ c ∈ sp, isSpaceJS c = true) ∧ d.isDigit = true

/-! ## Helper lemmas -/

theorem storageGet_set_self (id : String) (r : StoredRecord) (s : Storage) :
    storageGet id (storageSet id r s) = some r := by
  simp [storageGet, storageSet, List.find?]

theorem claimPrivate_isPrivateIP {h : String} (hc : claimPrivateHostname h) :
    isPrivateIP h = true := by
  rcases hc with rfl | rfl | rfl | ⟨a, b, c, d, hg, _, hb, _, _, hr⟩
  · decide
  · decide
  · decide
  · unfold isPrivateIP
    split
    · rfl
    · rw [hg]
      rcases hr with rfl | ⟨rfl, h16, h31⟩ | ⟨rfl, rfl⟩ | ⟨rfl, rfl⟩ | rfl <;>
        simp_all

/-- A `POST` whose URL fails validation (or is empty) returns a 400 error
and leaves the store untouched, independently of any fetch outcome. -/
theorem POST_invalid (inp : PostInput) (storage : Storage) (u : String)
    (hu : inp.url = some u)
    (hval : (validateURL inp.parsed).valid = false) :
    POST inp storage =
      (.error 400 (if u = "" then "URL is required"
                   else (validateURL inp.parsed).error.getD ""), storage) := by
  unfold POST
  rw [hu]
  by_cases h0 : u = ""
  · simp [h0]
  · simp [h0, hval]

/-! ## Claim theorems -/

/-- C3: for every URL whose hostname is `localhost`, `127.0.0.1`, `::1` or a
dotted-quad address in 10.0.0.0/8, 172.16.0.0/12, 192.168.0.0/16,
169.254.0.0/16 or 127.0.0.0/8, the validator rejects, `POST /ingest`
responds 400 with the store untouched, and the response does not depend on
any fetch outcome (no network call is consulted). -/
theorem claim3_validator_rejects_private (inp : PostInput) (storage : Storage)
    (u : String) (p : ParsedURL)
    (hu : inp.url = some u) (hp : inp.parsed = some p)
    (hpriv : claimPrivateHostname p.hostname) :
    (validateURL inp.parsed).valid = false ∧
    (∃ msg, POST inp storage = (.error 400 msg, storage)) ∧
    (∀ f, POST { inp with fetched := f } storage = POST inp storage) := by
  have hval : (validateURL inp.parsed).valid = false := by
    rw [hp]
    simp only [validateURL]
    split
    · rfl
    · simp [claimPrivate_isPrivateIP hpriv]
  refine ⟨hval, ⟨_, POST_invalid inp storage u hu hval⟩, ?_⟩
  intro f
  rw [POST_invalid { inp with fetched := f } storage u hu hval,
      POST_invalid inp storage u hu hval]

/-- Witness for C3 at the metadata-service address of the specification's
example. -/
theorem claim3_witness :
    (validateURL (some ⟨"http:", "169.254.169.254"⟩)).valid = false ∧
    (∃ msg, POST ⟨some "http://169.254.169.254/",
          some ⟨"http:", "169.254.169.254"⟩, .failure, "id1", 0⟩ [] =
        (.error 400 msg, [])) ∧
    (∀ f, POST ⟨some "http://169.254.169.254/",
          some ⟨"http:", "169.254.169.254"⟩, f, "id1", 0⟩ [] =
      POST ⟨some "http://169.254.169.254/",
          some ⟨"http:", "169.254.169.254"⟩, .failure, "id1", 0⟩ []) :=
  claim3_validator_rejects_private
    ⟨some "http://169.254.169.254/", some ⟨"http:", "169.254.169.254"⟩,
     .failure, "id1", 0⟩ [] "http://169.254.169.254/" ⟨"http:", "169.254.169.254"⟩
    rfl rfl
    (Or.inr (Or.inr (Or.inr
      ⟨169, 254, 169, 254, by decide, by decide, by decide, by decide, by decide,
       Or.inr (Or.inr (Or.inr (Or.inl ⟨rfl, rfl⟩)))⟩)))

/-- C4: when the outbound fetch of a validated, non-demo URL throws a
transport-level error, `POST` still answers with the success result whose
title is the fixture title annotated with the fetch-failure marker, and
stores the fixture document as content; no hard error reaches the caller. -/
theorem claim4_transport_failure_fallback (inp : PostInput) (storage : Storage)
    (u : String) (p : ParsedURL)
    (hu : inp.url = some u) (hne : u ≠ "")
    (hp : inp.parsed = some p)
    (hval : (validateURL inp.parsed).valid = true)
    (hdemo : demoRequested u p = false)
    (hf : inp.fetched = .failure) :
    POST inp storage =
      (.ok inp.newId (demoTitle ++ " (Demo - Fetch Failed)"),
       storageSet inp.newId
         ⟨u, demoTitle ++ " (Demo - Fetch Failed)", demoContent, inp.now⟩ storage) ∧
    strContains (demoTitle ++ " (Demo - Fetch Failed)") "(Demo - Fetch Failed)" = true := by
  constructor
  · rw [hp] at hval
    unfold POST
    rw [hu]
    simp [hne, hp, hval, hdemo, hf]
  · decide

/-- Witness for C4: a syntactically valid non-demo URL whose fetch throws. -/
theorem claim4_witness :
    POST ⟨some "http://a.com/", some ⟨"http:", "a.com"⟩, .failure, "abc123", 7⟩ [] =
      (.ok "abc123" (demoTitle ++ " (Demo - Fetch Failed)"),
       storageSet "abc123"
         ⟨"http://a.com/", demoTitle ++ " (Demo - Fetch Failed)", demoContent, 7⟩ []) ∧
    strContains (demoTitle ++ " (Demo - Fetch Failed)") "(Demo - Fetch Failed)" = true :=
  claim4_transport_failure_fallback
    ⟨some "http://a.com/", some ⟨"http:", "a.com"⟩, .failure, "abc123", 7⟩ []
    "http://a.com/" ⟨"http:", "a.com"⟩
    rfl (by decide) rfl (by decide) (by decide) rfl

/-- C5: a successful ingestion stores a record under the returned id, and a
`GET` with that id succeeds and returns that very record, in particular the
identical title; the generated id is assumed non-empty (`generateId` yields
the empty string only for degenerate `Math.random` outputs). -/
theorem claim5_roundtrip (inp : PostInput) (storage : Storage)
    (id title : String) (st' : Storage)
    (hid : inp.newId ≠ "")
    (hpost : POST inp storage = (.ok id title, st')) :
    ∃ r, storageGet id st' = some r ∧ GET (some id) st' = .ok r ∧ r.title = title := by
  unfold POST at hpost
  simp only [] at hpost
  split at hpost
  · exact absurd hpost (by simp)
  next u hu2 =>
    split at hpost
    · exact absurd hpost (by simp)
    · split at hpost
      · exact absurd hpost (by simp)
      · split at hpost
        · exact absurd hpost (by simp)
        next p hp2 =>
          split at hpost
          · exact absurd hpost (by simp)
          next t c heq =>
            rw [Prod.mk.injEq, ApiResult.ok.injEq] at hpost
            obtain ⟨⟨hid2, hti⟩, hst⟩ := hpost
            subst hid2 hti hst
            refine ⟨⟨u, t, c, inp.now⟩, storageGet_set_self .., ?_, rfl⟩
            unfold GET
            simp [hid, storageGet_set_self]

set_option maxRecDepth 8192 in
/-- Witness for C5: the demo ingestion round-trips through the store. -/
theorem claim5_witness :
    ∃ r, storageGet "id1"
          (storageSet "id1" ⟨"http://example.com/", demoTitle, demoContent, 42⟩ []) =
            some r ∧
        GET (some "id1")
          (storageSet "id1" ⟨"http://example.com/", demoTitle, demoContent, 42⟩ []) =
          .ok r ∧
        r.title = demoTitle :=
  claim5_roundtrip
    ⟨some "http://example.com/", some ⟨"http:", "example.com"⟩, .failure, "id1", 42⟩
    [] "id1" demoTitle
    (storageSet "id1" ⟨"http://example.com/", demoTitle, demoContent, 42⟩ [])
    (by decide) rfl

/-- C9: `isPrivateIP` recognizes private and loopback addresses only as
decimal dotted quads or the three literals `localhost`, `127.0.0.1`, `::1`;
on alternative encodings (decimal-integer, octal dotted-quad, IPv4-mapped
IPv6) it returns `false`, and `validateURL` accepts an http URL carrying such
a parsed hostname. -/
theorem claim9_literal_encodings_only :
    (∀ h, isPrivateIP h = true →
      h = "localhost" ∨ h = "127.0.0.1" ∨ h = "::1" ∨
      (∃ g, ipv4Groups h = some g)) ∧
    isPrivateIP "2130706433" = false ∧
    isPrivateIP "0177.0.0.1" = false ∧
    isPrivateIP "::ffff:127.0.0.1" = false ∧
    validateURL (some ⟨"http:", "2130706433"⟩) = ⟨true, none⟩ ∧
    validateURL (some ⟨"http:", "0177.0.0.1"⟩) = ⟨true, none⟩ ∧
    validateURL (some ⟨"http:", "::ffff:127.0.0.1"⟩) = ⟨true, none⟩ := by
  refine ⟨?_, by decide, by decide, by decide, by decide, by decide, by decide⟩
  intro h hpriv
  unfold isPrivateIP at hpriv
  split at hpriv
  · next hcond =>
    simp only [Bool.or_eq_true, decide_eq_true_eq] at hcond
    tauto
  · split at hpriv
    · next g heq =>
      exact Or.inr (Or.inr (Or.inr ⟨_, heq⟩))
    · exact absurd hpriv (by simp)

/-- Witness for C9: the implication instantiated at a hostname the guard
does recognize. -/
theorem claim9_witness :
    isPrivateIP "10.1.2.3" = true ∧
    ("10.1.2.3" = "localhost" ∨ "10.1.2.3" = "127.0.0.1" ∨ "10.1.2.3" = "::1" ∨
     ∃ g, ipv4Groups "10.1.2.3" = some g) :=
  ⟨by decide, claim9_literal_encodings_only.1 "10.1.2.3" (by decide)⟩

theorem listSafe_append (l1 l2 : List HNode) :
    listSafe (l1 ++ l2) = (listSafe l1 && listSafe l2) := by
  induction l1 with
  | nil => simp [listSafe]
  | cons n rest ih =>
    cases n with
    | text s => simp [listSafe, ih]
    | elem t a ch => simp [listSafe, ih, Bool.and_assoc]

theorem sanitizeList_safe : ∀ l : List HNode, listSafe (sanitizeList l) = true := by
  intro l
  induction l using sanitizeList.induct with
  | case1 => simp [sanitizeList, listSafe]
  | case2 s rest ih => simp [sanitizeList, listSafe, ih]
  | case3 t a ch rest htag ihch ihrest =>
    simp [sanitizeList, listSafe, htag, ihch, ihrest, List.mem_filter]
  | case4 t a ch rest htag hforbid ihrest =>
    simp [sanitizeList, htag, hforbid, ihrest]
  | case5 t a ch rest htag hforbid ihch ihrest =>
    simp [sanitizeList, htag, hforbid, listSafe_append, ihch, ihrest]

theorem allowed_attr_clean {n : String} (hn : n ∈ allowedAttrs) :
    (!"on".data.isPrefixOf n.data) = true ∧ decide (n ≠ "style") = true := by
  fin_cases hn <;> exact ⟨by decide, by decide⟩

theorem allowed_tag_clean {t : String} (ht : t ∈ allowedTags) :
    decide (t ≠ "script") = true := by
  fin_cases ht <;> decide

theorem listSafe_implies_clean :
    ∀ l : List HNode, listSafe l = true → listClean l = true := by
  intro l
  induction l using listSafe.induct with
  | case1 => intro _; simp [listClean]
  | case2 s rest ih =>
    intro hs
    simp only [listSafe] at hs
    simp only [listClean]
    exact ih hs
  | case3 t a ch rest ihch ihrest =>
    intro hs
    simp only [listSafe, Bool.and_eq_true, decide_eq_true_eq, List.all_eq_true] at hs
    obtain ⟨⟨⟨htag, hattrs⟩, hch⟩, hrest⟩ := hs
    simp only [listClean, Bool.and_eq_true, List.all_eq_true]
    exact ⟨⟨⟨allowed_tag_clean htag,
      fun kv hkv => allowed_attr_clean (hattrs kv hkv)⟩, ihch hch⟩, ihrest hrest⟩

/-- C2: whatever parsed HTML is given to it, the sanitizer's output carries
only allow-listed tags with only the attributes `href`, `src`, `alt`,
`title`, `class`, `id`; in particular no script element, no `on*`-prefixed
event-handler attribute and no `style` attribute survives. -/
theorem claim2_sanitizer_allowlist (dom : List HNode) :
    listSafe (sanitizeList dom) = true ∧ listClean (sanitizeList dom) = true :=
  ⟨sanitizeList_safe dom, listSafe_implies_clean _ (sanitizeList_safe dom)⟩

/-- C1 (evidence of the violation): the legacy reader page injects the stored
content verbatim — for a record whose content carries an `onerror` handler the
injected HTML is that raw content — while the sanitizer can never emit a
script element, an `on*` attribute or a `style` attribute. -/
theorem claim1_unsanitized_render_path :
    legacyReaderInjectedHTML evilRecord = "<img src=x onerror=alert(1)>" ∧
    strContains (legacyReaderInjectedHTML evilRecord) "onerror" = true ∧
    (∀ dom : List HNode, listClean (sanitizeList dom) = true) :=
  ⟨rfl, by decide, fun dom => listSafe_implies_clean _ (sanitizeList_safe dom)⟩

theorem newlinesToSpaces_no_newline (l : List Char) :
    ∀ c ∈ newlinesToSpaces l, c ≠ '\n' := by
  intro c hc
  simp only [newlinesToSpaces, List.mem_map] at hc
  obtain ⟨x, _, rfl⟩ := hc
  by_cases hx : x = '\n'
  · simp [hx]
  · simp [hx]

theorem collapseSpacesGo_subset (l : List Char) :
    ∀ b : Bool, ∀ c ∈ collapseSpacesGo b l, c ∈ l ∨ c = ' ' := by
  induction l with
  | nil => intro b c hc; simp [collapseSpacesGo] at hc
  | cons a rest ih =>
    intro b c hc
    simp only [collapseSpacesGo] at hc
    by_cases ha : a = ' '
    · subst ha
      rw [if_pos rfl] at hc
      cases b with
      | true =>
        rcases ih true c hc with h | h
        · exact Or.inl (List.mem_cons_of_mem _ h)
        · exact Or.inr h
      | false =>
        rcases List.mem_cons.1 hc with rfl | h
        · exact Or.inr rfl
        · rcases ih true c h with h2 | h2
          · exact Or.inl (List.mem_cons_of_mem _ h2)
          · exact Or.inr h2
    · rw [if_neg ha] at hc
      rcases List.mem_cons.1 hc with rfl | h
      · exact Or.inl (List.mem_cons_self _ _)
      · rcases ih false c h with h2 | h2
        · exact Or.inl (List.mem_cons_of_mem _ h2)
        · exact Or.inr h2

theorem replaceListF_subset (pat repl : List Char) :
    ∀ fuel l, ∀ c ∈ replaceListF pat repl fuel l, c ∈ l ∨ c ∈ repl := by
  intro fuel
  induction fuel with
  | zero =>
    intro l c hc
    exact Or.inl (by simpa [replaceListF] using hc)
  | succ n ih =>
    intro l c hc
    match l with
    | [] => simp [replaceListF] at hc
    | c0 :: rest =>
      simp only [replaceListF] at hc
      by_cases hcnd : pat ≠ [] ∧ pat.isPrefixOf (c0 :: rest)
      · rw [if_pos hcnd] at hc
        rcases List.mem_append.1 hc with h2 | h2
        · exact Or.inr h2
        · rcases ih _ c h2 with h3 | h3
          · exact Or.inl (List.mem_of_mem_drop h3)
          · exact Or.inr h3
      · rw [if_neg hcnd] at hc
        rcases List.mem_cons.1 hc with rfl | h2
        · exact Or.inl (List.mem_cons_self _ _)
        · rcases ih _ c h2 with h3 | h3
          · exact Or.inl (List.mem_cons_of_mem _ h3)
          · exact Or.inr h3

theorem replaceList_subset (pat repl : List Char) :
    ∀ l, ∀ c ∈ replaceList pat repl l, c ∈ l ∨ c ∈ repl := by
  intro l c hc
  exact replaceListF_subset pat repl _ l c hc

/-- C7: the reflow of the preformatted block `"Line1\nLine2\n\nLine3"`
produces exactly the two paragraphs `Line1 Line2` and `Line3` separated by
the paragraph-boundary markup, and in general reflow leaves no newline in
its output: every newline was either absorbed into a paragraph boundary or
collapsed to a space. -/
theorem claim7_reflow :
    reflowPre "Line1\nLine2\n\nLine3".data =
      "Line1 Line2".data ++ pBreakHTML ++ "Line3".data ∧
    pBreakHTML = "</p><br/><br/><p>".data ∧
    (∀ l, (reflowPre l).all (fun c => decide (c ≠ '\n')) = true) := by
  refine ⟨?_, rfl, ?_⟩
  · decide
  · intro l
    rw [List.all_eq_true]
    intro c hc
    simp only [decide_eq_true_eq]
    rcases replaceList_subset placeholder pBreakHTML _ c hc with h | h
    · rcases collapseSpacesGo_subset _ false c h with h2 | h2
      · exact newlinesToSpaces_no_newline _ c h2
      · subst h2; decide
    · intro hceq
      subst hceq
      exact absurd h (by decide)

theorem isDigit_not_spaceJS {c : Char} (h : c.isDigit = true) :
    isSpaceJS c = false := by
  simp only [isSpaceJS, decide_eq_false_iff_not]
  intro hm
  fin_cases hm <;> exact absurd h (by decide)

theorem drop_length_takeWhile (p : Char → Bool) (l : List Char) :
    l.drop (l.takeWhile p).length = l.dropWhile p := by
  induction l with
  | nil => rfl
  | cons a rest ih =>
    by_cases ha : p a
    · simp [List.takeWhile_cons, List.dropWhile_cons, ha, ih]
    · simp [List.takeWhile_cons, List.dropWhile_cons, ha]

theorem chapterPatternTest_iff (l : List Char) :
    chapterPatternTest l = true ↔ claimChapterStart l := by
  constructor
  · intro hT
    unfold chapterPatternTest at hT
    simp only [] at hT
    by_cases hc : "chapter".data.isPrefixOf (toLowerList l) = true
    · rw [if_pos hc] at hT
      simp only [Bool.and_eq_true] at hT
      obtain ⟨hsp, hdig⟩ := hT
      obtain ⟨t0, ht0⟩ : ∃ t0, toLowerList l = "chapter".data ++ t0 :=
        (List.isPrefixOf_iff_prefix.1 hc).imp (fun _ he => he.symm)
      have hdrop : (toLowerList l).drop 7 = t0 := by
        rw [ht0]
        exact List.drop_left "chapter".data t0
      rw [hdrop] at hsp hdig
      rw [drop_length_takeWhile] at hdig
      rcases hde : t0.dropWhile isSpaceJS with _ | ⟨d, rest⟩
      · rw [hde] at hdig; exact absurd hdig (by simp)
      · rw [hde] at hdig
        refine ⟨"chapter".data, t0.takeWhile isSpaceJS, d, rest, ?_, Or.inl rfl,
          ?_, fun c hcm => List.mem_takeWhile_imp hcm, hdig⟩
        · rw [ht0, ← hde, List.append_assoc, List.takeWhile_append_dropWhile]
        · intro hnil
          rw [hnil] at hsp
          exact absurd hsp (by simp)
    · rw [if_neg hc] at hT
      by_cases hp : "part".data.isPrefixOf (toLowerList l) = true
      · rw [if_pos hp] at hT
        simp only [Bool.and_eq_true] at hT
        obtain ⟨hsp, hdig⟩ := hT
        obtain ⟨t0, ht0⟩ : ∃ t0, toLowerList l = "part".data ++ t0 :=
          (List.isPrefixOf_iff_prefix.1 hp).imp (fun _ he => he.symm)
        have hdrop : (toLowerList l).drop 4 = t0 := by
          rw [ht0]
          exact List.drop_left "part".data t0
        rw [hdrop] at hsp hdig
        rw [drop_length_takeWhile] at hdig
        rcases hde : t0.dropWhile isSpaceJS with _ | ⟨d, rest⟩
        · rw [hde] at hdig; exact absurd hdig (by simp)
        · rw [hde] at hdig
          refine ⟨"part".data, t0.takeWhile isSpaceJS, d, rest, ?_, Or.inr rfl,
            ?_, fun c hcm => List.mem_takeWhile_imp hcm, hdig⟩
          · rw [ht0, ← hde, List.append_assoc, List.takeWhile_append_dropWhile]
          · intro hnil
            rw [hnil] at hsp
            exact absurd hsp (by simp)
      · rw [if_neg hp] at hT
        exact absurd hT (by simp)
  · rintro ⟨kw, sp, d, rest, hlow, hkw, hspne, hspall, hd⟩
    have hspw : sp.takeWhile isSpaceJS = sp := List.takeWhile_eq_self_iff.2 hspall
    have htw : (sp ++ d :: rest).takeWhile isSpaceJS = sp := by
      rw [List.takeWhile_append, hspw]
      simp [List.takeWhile_cons, isDigit_not_spaceJS hd]
    have htd : (sp ++ d :: rest).drop sp.length = d :: rest :=
      List.drop_left sp (d :: rest)
    unfold chapterPatternTest
    simp only []
    rcases hkw with rfl | rfl
    · have hc : "chapter".data.isPrefixOf (toLowerList l) = true := by
        rw [hlow]
        exact List.isPrefixOf_iff_prefix.2
          ⟨sp ++ d :: rest, (List.append_assoc _ _ _).symm⟩
      rw [if_pos hc]
      have hdrop : (toLowerList l).drop 7 = sp ++ d :: rest := by
        rw [hlow, List.append_assoc]
        exact List.drop_left "chapter".data (sp ++ d :: rest)
      rw [hdrop]
      simp [htw, htd, hspne, hd]
    · have hc : "chapter".data.isPrefixOf (toLowerList l) = false := by
        rw [hlow]
        simp [List.isPrefixOf]
      have hp : "part".data.isPrefixOf (toLowerList l) = true := by
        rw [hlow]
        exact List.isPrefixOf_iff_prefix.2
          ⟨sp ++ d :: rest, (List.append_assoc _ _ _).symm⟩
      rw [if_neg (by simp [hc]), if_pos hp]
      have hdrop : (toLowerList l).drop 4 = sp ++ d :: rest := by
        rw [hlow, List.append_assoc]
        exact List.drop_left "part".data (sp ++ d :: rest)
      rw [hdrop]
      simp [htw, htd, hspne, hd]

/-- C8: the marker-paragraph pass promotes exactly the paragraphs whose
tag-stripped text begins, case-insensitively, with `Chapter` or `Part`
followed by whitespace and a digit (so `Chapterhouse rules`, with no word
boundary after `Chapter`, is not promoted); a promoted paragraph is wrapped
in its own chapter container and its displayed title is the text truncated
to the 50-character maximum, with an ellipsis marker appended when truncated
(never longer than 53 characters). -/
theorem claim8_marker_promotion :
    (∀ l, chapterPatternTest l = true ↔ claimChapterStart l) ∧
    (∀ idx pc, ((markerReplacement idx pc).2.2).length ≤ 53) ∧
    markerPass "<p>Chapter 2: The Awakening and much more of the story text here</p>".data 0 =
      ("<div className=\x22chapter\x22 id=\x22chapter-1\x22><p>Chapter 2: The Awakening and much more of the story text here</p></div>".data,
       [("chapter-1", "Chapter 2: The Awakening and much more of the stor...")], 1) ∧
    markerPass "<p>Chapterhouse rules</p>".data 0 =
      ("<p>Chapterhouse rules</p>".data, [], 0) := by
  refine ⟨chapterPatternTest_iff, ?_, by decide, by decide⟩
  intro idx pc
  simp only [markerReplacement, String.length]
  split
  · simp [List.length_append, List.length_take]
  · simp [List.length_take]

/-- C10: the marker pass runs over the output of the preformatted-block
pass: a `<pre>` block whose reflowed first paragraph begins with
`Chapter <number>` yields two chapter entries with distinct anchor ids — one
from each pass, the index continuing across passes — and the paragraph ends
up wrapped in a chapter container nested inside the block's chapter
container. -/
theorem claim10_double_promotion :
    segment "<pre>Chapter 1 Intro\nmore text</pre>" =
      ("<div className=\x22chapter\x22 id=\x22chapter-1\x22><h2>Chapter 1 Intro</h2><div className=\x22chapter\x22 id=\x22chapter-2\x22><p>Chapter 1 Intro more text</p></div></div>",
       [("chapter-1", "Chapter 1 Intro"), ("chapter-2", "Chapter 1 Intro more text")]) ∧
    ("chapter-1" : String) ≠ "chapter-2" ∧
    chapterPatternTest (trimJS (stripTags
      (reflowPre "Chapter 1 Intro\nmore text".data))) = true := by
  refine ⟨by decide, by decide, by decide⟩

/-! ## C6: the extraction selector loop -/

theorem claimExtract_eq_fallback (doc : List HNode)
    (h : claimPick (claimCandidates (removeIf isNoise1 doc) articleSelectors) = none) :
    claimExtract doc = bodyFallback (removeIf isNoise1 doc) := by
  simp only [claimExtract]
  rw [h]

theorem c6_removeNoise : removeIf isNoise1 twoArticlesDoc = twoArticlesDoc := by
  simp [removeIf, twoArticlesDoc, isNoise1, hasClass, getAttr]

theorem c6_selectArticle :
    selectAll (.tagSel "article") twoArticlesDoc = [HNode.elem "article" [] [.text "aaaaaaaaaaaaaaaaaaaaaaaaaaaaaaaaaaaaaaaaaaaaaaaaaaaaaaaaaaaa"], HNode.elem "article" [] [.text "bbbbbbbbbbbbbbbbbbbbbbbbbbbbbbbbbbbbbbbbbbbbbbbbbbbbbbbbbbbb"]] := by
  simp [selectAll, twoArticlesDoc, selMatches, hasClass, getAttr]

theorem c6_textBoth :
    textOfList [HNode.elem "article" [] [.text "aaaaaaaaaaaaaaaaaaaaaaaaaaaaaaaaaaaaaaaaaaaaaaaaaaaaaaaaaaaa"], HNode.elem "article" [] [.text "bbbbbbbbbbbbbbbbbbbbbbbbbbbbbbbbbbbbbbbbbbbbbbbbbbbbbbbbbbbb"]] = "aaaaaaaaaaaaaaaaaaaaaaaaaaaaaaaaaaaaaaaaaaaaaaaaaaaaaaaaaaaabbbbbbbbbbbbbbbbbbbbbbbbbbbbbbbbbbbbbbbbbbbbbbbbbbbbbbbbbbbb" := by
  simp [textOfList]

set_option maxRecDepth 32768 in
theorem c6_selectLoop :
    selectLoop twoArticlesDoc articleSelectors = some (HNode.elem "article" [] [.text "aaaaaaaaaaaaaaaaaaaaaaaaaaaaaaaaaaaaaaaaaaaaaaaaaaaaaaaaaaaa"]) := by
  have hgt : 100 < (trimJS (textOfList [HNode.elem "article" [] [.text "aaaaaaaaaaaaaaaaaaaaaaaaaaaaaaaaaaaaaaaaaaaaaaaaaaaaaaaaaaaa"], HNode.elem "article" [] [.text "bbbbbbbbbbbbbbbbbbbbbbbbbbbbbbbbbbbbbbbbbbbbbbbbbbbbbbbbbbbb"]]).data).length := by
    rw [c6_textBoth]
    decide
  simp only [articleSelectors, selectLoop, c6_selectArticle]
  simp [hgt]

set_option maxRecDepth 32768 in
theorem c6_extract : extractContent twoArticlesDoc = "aaaaaaaaaaaaaaaaaaaaaaaaaaaaaaaaaaaaaaaaaaaaaaaaaaaaaaaaaaaa" := by
  simp only [extractContent, c6_removeNoise, c6_selectLoop]
  simp [renderList, renderAttrs, HNode.childrenOf]
  exact fun h => absurd h (by decide)

set_option maxRecDepth 32768 in
theorem c6_candidates :
    claimCandidates twoArticlesDoc articleSelectors = [HNode.elem "article" [] [.text "aaaaaaaaaaaaaaaaaaaaaaaaaaaaaaaaaaaaaaaaaaaaaaaaaaaaaaaaaaaa"], HNode.elem "article" [] [.text "bbbbbbbbbbbbbbbbbbbbbbbbbbbbbbbbbbbbbbbbbbbbbbbbbbbbbbbbbbbb"]] := by
  simp [articleSelectors, claimCandidates, selectAll, twoArticlesDoc,
    selMatches, hasClass, getAttr]

theorem c6_text1 : textOfList [HNode.elem "article" [] [.text "aaaaaaaaaaaaaaaaaaaaaaaaaaaaaaaaaaaaaaaaaaaaaaaaaaaaaaaaaaaa"]] = "aaaaaaaaaaaaaaaaaaaaaaaaaaaaaaaaaaaaaaaaaaaaaaaaaaaaaaaaaaaa" := by
  simp [textOfList]

theorem c6_text2 : textOfList [HNode.elem "article" [] [.text "bbbbbbbbbbbbbbbbbbbbbbbbbbbbbbbbbbbbbbbbbbbbbbbbbbbbbbbbbbbb"]] = "bbbbbbbbbbbbbbbbbbbbbbbbbbbbbbbbbbbbbbbbbbbbbbbbbbbbbbbbbbbb" := by
  simp [textOfList]

theorem c6_pick :
    claimPick [HNode.elem "article" [] [.text "aaaaaaaaaaaaaaaaaaaaaaaaaaaaaaaaaaaaaaaaaaaaaaaaaaaaaaaaaaaa"], HNode.elem "article" [] [.text "bbbbbbbbbbbbbbbbbbbbbbbbbbbbbbbbbbbbbbbbbbbbbbbbbbbbbbbbbbbb"]] = none := by
  have h1 : ¬ (100 < (trimJS (textOfList [HNode.elem "article" [] [.text "aaaaaaaaaaaaaaaaaaaaaaaaaaaaaaaaaaaaaaaaaaaaaaaaaaaaaaaaaaaa"]]).data).length) := by
    rw [c6_text1]
    decide
  have h2 : ¬ (100 < (trimJS (textOfList [HNode.elem "article" [] [.text "bbbbbbbbbbbbbbbbbbbbbbbbbbbbbbbbbbbbbbbbbbbbbbbbbbbbbbbbbbbb"]]).data).length) := by
    rw [c6_text2]
    decide
  simp [claimPick, h1, h2]

theorem c6_selectBody :
    selectAll (.tagSel "body") twoArticlesDoc = [HNode.elem "body" [] [HNode.elem "article" [] [.text "aaaaaaaaaaaaaaaaaaaaaaaaaaaaaaaaaaaaaaaaaaaaaaaaaaaaaaaaaaaa"], HNode.elem "article" [] [.text "bbbbbbbbbbbbbbbbbbbbbbbbbbbbbbbbbbbbbbbbbbbbbbbbbbbbbbbbbbbb"]]] := by
  simp [selectAll, twoArticlesDoc, selMatches, hasClass, getAttr]

set_option maxRecDepth 32768 in
theorem c6_renderBody :
    renderList [HNode.elem "article" [] [.text "aaaaaaaaaaaaaaaaaaaaaaaaaaaaaaaaaaaaaaaaaaaaaaaaaaaaaaaaaaaa"], HNode.elem "article" [] [.text "bbbbbbbbbbbbbbbbbbbbbbbbbbbbbbbbbbbbbbbbbbbbbbbbbbbbbbbbbbbb"]] =
      "<article>aaaaaaaaaaaaaaaaaaaaaaaaaaaaaaaaaaaaaaaaaaaaaaaaaaaaaaaaaaaa</article><article>bbbbbbbbbbbbbbbbbbbbbbbbbbbbbbbbbbbbbbbbbbbbbbbbbbbbbbbbbbbb</article>" := by
  simp [renderList, renderAttrs]

theorem c6_claimExtract :
    claimExtract twoArticlesDoc =
      "<article>aaaaaaaaaaaaaaaaaaaaaaaaaaaaaaaaaaaaaaaaaaaaaaaaaaaaaaaaaaaa</article><article>bbbbbbbbbbbbbbbbbbbbbbbbbbbbbbbbbbbbbbbbbbbbbbbbbbbbbbbbbbbb</article>" := by
  have h := claimExtract_eq_fallback twoArticlesDoc
    (by rw [c6_removeNoise, c6_candidates]; exact c6_pick)
  rw [h, c6_removeNoise]
  simp only [bodyFallback, c6_selectBody, HNode.childrenOf]
  exact c6_renderBody

/-- C6 counterexample: on a body holding two `article` elements of 60 text
characters each, the code keeps the `article` selector — the combined text
of the whole selection (120 characters) passes the threshold — and returns
the first article's inner HTML, while the claim as stated finds no single
candidate element whose own text exceeds 100 characters and so falls back to
the body's inner HTML. -/
theorem claim6_counterexample :
    extractContent twoArticlesDoc ≠ claimExtract twoArticlesDoc := by
  rw [c6_extract, c6_claimExtract]
  decide

theorem selectLoop_find (d : List HNode) : ∀ sels : List Sel,
    (match selectLoop d sels with
     | some e => renderList e.childrenOf
     | none => "") =
    (match sels.find? (fun s =>
        decide ((selectAll s d).length > 0) &&
        decide ((trimJS (textOfList (selectAll s d)).data).length > 100)) with
     | some s =>
       match selectAll s d with
       | e :: _ => renderList e.childrenOf
       | [] => ""
     | none => "")
  | [] => rfl
  | s :: rest => by
    simp only [selectLoop, List.find?]
    by_cases hc :
        (decide ((selectAll s d).length > 0) &&
         decide ((trimJS (textOfList (selectAll s d)).data).length > 100)) = true
    · rw [hc]
      simp only []
      cases h : selectAll s d with
      | nil => simp [List.head?]
      | cons e t => simp [List.head?]
    · rw [Bool.not_eq_true] at hc
      rw [hc]
      simp only []
      exact selectLoop_find d rest

/-- C6 (corrected): the extraction step equals the amended reading — the
first selector in priority order with at least one match whose matches'
combined trimmed text length exceeds 100 wins, the content is the inner HTML
of its first matched element, and when no selector qualifies, or the winning
inner HTML serializes empty, the body's inner HTML is used. -/
theorem claim6_amended (doc : List HNode) :
    extractContent doc = amendedExtract doc := by
  simp only [extractContent, amendedExtract]
  rw [selectLoop_find]

end Reader
